import Mathlib

/-
  Verification of the ETHDenver2025 indicator & backtest engine.

  Numbers are modelled as exact rationals (ℚ); values that go through a
  square root (standard deviations, z-scores, Bollinger bands) live in ℝ.
  Python's ValueError("Not enough price data ...") is modelled by the
  error type MRErr.  Python/numpy slice semantics (`xs[-window:]` with an
  arbitrary integer window) are modelled by pyTail.
-/

namespace ETHDenver

/-- Python slice semantics for `xs[s:]` with an arbitrary integer `s`:
a negative index counts from the end (clamped at the front), a
non-negative index drops that many elements. -/
def pyTail {α : Type} (xs : List α) (s : ℤ) : List α :=
  if s < 0 then xs.drop (((xs.length : ℤ) + s).toNat) else xs.drop s.toNat

/-- np.mean over a rational list (sum divided by length). -/
def npMean (xs : List ℚ) : ℚ := xs.sum / xs.length

/-- Population variance as computed inside np.std: mean of squared
deviations from the mean (divide by N). -/
def npVar (xs : List ℚ) : ℚ :=
  (xs.map (fun x => (x - npMean xs) ^ 2)).sum / xs.length

/-- np.std: square root of the population variance. -/
noncomputable def npStd (xs : List ℚ) : ℝ := Real.sqrt (npVar xs)

/-- Sample variance (divide by N-1), the quantity under pandas
`rolling(...).std()` which uses ddof = 1. -/
def sampleVar (xs : List ℚ) : ℚ :=
  (xs.map (fun x => (x - npMean xs) ^ 2)).sum / ((xs.length : ℚ) - 1)

/-- pandas rolling std (ddof = 1). -/
noncomputable def pdStd (xs : List ℚ) : ℝ := Real.sqrt (sampleVar xs)

/-- Error raised by the indicator functions (Python: ValueError with a
"Not enough price data. Need at least ... data points." message). -/
inductive MRErr : Type
  | insufficientData (needed : ℤ)
deriving DecidableEq

/-! ## Core indicator functions
    (src/dexy/tools/mean_reversion/core/indicators.py) -/

/-- MeanReversionIndicators.calculate_z_score.  The window parameter is an
integer, as in Python; `prices_array[-window:]` is pyTail. -/
noncomputable def calculate_z_score (prices : List ℚ) (window : ℤ) :
    Except MRErr ℝ :=
  if (prices.length : ℤ) < window then .error (.insufficientData window)
  else
    let s := pyTail prices (-window)
    if npStd s = 0 then .ok 0
    else .ok ((((prices.getLast?.getD 0 : ℚ) : ℝ) - ((npMean s : ℚ) : ℝ)) / npStd s)

/-- np.diff: consecutive differences. -/
def npDiff (xs : List ℚ) : List ℚ := List.zipWith (fun a b => b - a) xs xs.tail

/-- MeanReversionIndicators.calculate_rsi. -/
def calculate_rsi (prices : List ℚ) (window : ℤ) : Except MRErr ℚ :=
  if (prices.length : ℤ) < window + 1 then .error (.insufficientData (window + 1))
  else
    let deltas := npDiff prices
    let gains := deltas.map (fun d => if 0 < d then d else 0)
    let losses := deltas.map (fun d => if d < 0 then -d else 0)
    let avg_gain := npMean (pyTail gains (-window))
    let avg_loss := npMean (pyTail losses (-window))
    if avg_loss = 0 then .ok 100
    else .ok (100 - 100 / (1 + avg_gain / avg_loss))

/-- Result record of calculate_bollinger_bands. -/
structure BollingerBands where
  middle_band : ℝ
  upper_band : ℝ
  lower_band : ℝ
  current_price : ℝ
  percent_b : ℝ

/-- MeanReversionIndicators.calculate_bollinger_bands. -/
noncomputable def calculate_bollinger_bands (prices : List ℚ) (window : ℤ)
    (num_std : ℚ) : Except MRErr BollingerBands :=
  if (prices.length : ℤ) < window then .error (.insufficientData window)
  else
    let s := pyTail prices (-window)
    let moving_avg : ℝ := ((npMean s : ℚ) : ℝ)
    let std_dev : ℝ := npStd s
    let upper_band := moving_avg + std_dev * (num_std : ℝ)
    let lower_band := moving_avg - std_dev * (num_std : ℝ)
    let current_price : ℝ := ((prices.getLast?.getD 0 : ℚ) : ℝ)
    let percent_b :=
      if upper_band ≠ lower_band then
        (current_price - lower_band) / (upper_band - lower_band)
      else (1 : ℝ) / 2
    .ok ⟨moving_avg, upper_band, lower_band, current_price, percent_b⟩

/-! ## Whale-signal risk multiplier
    (src/dexy/tools/whalesignal/risk_multiplier.py) -/

/-- Result record of get_risk_multiplier (risk-score-provided path). -/
structure RiskMultiplierData where
  multiplier : ℚ
  risk_score : ℚ
  risk_level : String
  explanation : String
deriving DecidableEq

/-- get_risk_multiplier with an explicitly provided numeric risk score
(the generate-from-whale-signals path is an external collaborator). -/
def get_risk_multiplier (risk_score : ℚ) : RiskMultiplierData :=
  let risk_level :=
    if risk_score ≥ 5 then "HIGH RISK ALERT"
    else if risk_score ≥ 2 then "MODERATE RISK"
    else "LOW RISK"
  if risk_score ≥ 5 then
    ⟨2, risk_score, risk_level,
      "High whale activity/dominance detected - doubling signal strength"⟩
  else if risk_score ≥ 2 then
    ⟨3 / 2, risk_score, risk_level,
      "Moderate whale activity/dominance detected - increasing signal strength by 50%"⟩
  else
    ⟨1, risk_score, risk_level,
      "Normal whale activity/dominance - maintaining original signal strength"⟩

/-- Result record of apply_risk_multiplier: the multiplier data together
with the original and adjusted signal values. -/
structure AdjustedSignal where
  multiplier : ℚ
  risk_score : ℚ
  original_value : ℚ
  adjusted_value : ℚ
deriving DecidableEq

/-- apply_risk_multiplier. -/
def apply_risk_multiplier (signal_value risk_score : ℚ) : AdjustedSignal :=
  let m := get_risk_multiplier risk_score
  ⟨m.multiplier, m.risk_score, signal_value, signal_value * m.multiplier⟩

/-! ## Mean-reversion composite score
    (src/dexy/tools/mean_reversion/integrated_demo.py) -/

/-- calculate_mean_reversion_score. -/
def calculate_mean_reversion_score (z_score rsi percent_b : ℚ) : ℚ :=
  let z_score_component := max (min (-z_score) 3) (-3)
  let rsi_component :=
    if rsi ≤ 30 then 3 * (30 - rsi) / 30
    else if rsi ≥ 70 then -3 * (rsi - 70) / 30
    else 0
  let bb_component :=
    if percent_b ≤ 0 then 4 * min |percent_b| 1
    else if percent_b ≥ 1 then -4 * min (percent_b - 1) 1
    else -4 * (percent_b - 1 / 2)
  let total_score := z_score_component + rsi_component + bb_component
  max (min total_score 10) (-10)

/-! ## ATR functions
    (src/tools/mean_reversion/core/indicators.py) -/

/-- OHLC candle (core/api.py OHLCData).  The timestamp and volume fields
enter no computation and are omitted. -/
structure OHLCData where
  open_ : ℚ
  high : ℚ
  low : ℚ
  close : ℚ
deriving DecidableEq

/-- True range per consecutive candle pair:
max(high - low, |high - prev_close|, |low - prev_close|). -/
def trueRangeList (ohlc : List OHLCData) : List ℚ :=
  List.zipWith
    (fun prev cur =>
      max (cur.high - cur.low) (max |cur.high - prev.close| |cur.low - prev.close|))
    ohlc ohlc.tail

/-- MeanReversionIndicators.calculate_average_true_range: note the length
check is `len(ohlc_data) < window`, not `window + 1`. -/
def calculate_average_true_range (ohlc : List OHLCData) (window : ℤ) :
    Except MRErr ℚ :=
  if (ohlc.length : ℤ) < window then .error (.insufficientData window)
  else .ok (npMean (pyTail (trueRangeList ohlc) (-window)))

/-- True ranges from separate high/low/close arrays (loop index i uses
highs[i], lows[i], closes[i-1]). -/
def trueRangeList3 (highs lows closes : List ℚ) : List ℚ :=
  List.zipWith (fun hl pc => max (hl.1 - hl.2) (max |hl.1 - pc| |hl.2 - pc|))
    (List.zip highs.tail lows.tail) closes

/-- MeanReversionIndicators.calculate_atr (separate arrays variant): this
one does require at least window + 1 data points. -/
def calculate_atr (highs lows closes : List ℚ) (window : ℤ) :
    Except MRErr ℚ :=
  if (highs.length : ℤ) < window + 1 ∨ (lows.length : ℤ) < window + 1 ∨
      (closes.length : ℤ) < window + 1 then
    .error (.insufficientData (window + 1))
  else .ok (npMean (pyTail (trueRangeList3 highs lows closes) (-window)))

/-! ## Rolling columns of the advanced strategy
    (src/Mean_Reversion/advanced_strategy.py, calculate_metrics) -/

/-- pandas rolling windows: entry i is the window of the last `w` values
ending at i, or none (NaN) while fewer than `w` values are available. -/
def rollingWindows (xs : List ℚ) (w : ℕ) : List (Option (List ℚ)) :=
  (List.range xs.length).map
    (fun i => if i + 1 < w then none else some ((xs.take (i + 1)).drop (i + 1 - w)))

/-- df['price'].rolling(window).mean(). -/
def rollingMean (xs : List ℚ) (w : ℕ) : List (Option ℚ) :=
  (rollingWindows xs w).map (Option.map npMean)

/-- df['price'].rolling(window).std(): pandas std, i.e. ddof = 1 (sample
standard deviation), applied to each full window. -/
noncomputable def rollingStd (xs : List ℚ) (w : ℕ) : List (Option ℝ) :=
  (rollingWindows xs w).map (Option.map pdStd)

/-! ## Mean-reversion backtest
    (src/Mean_Reversion/advanced_strategy.py, backtest_strategy) -/

/-- One dataframe row of backtest state: the position, capital, holdings
and portfolio_value columns. -/
structure BtRow where
  position : ℤ
  capital : ℚ
  holdings : ℚ
  value : ℚ
deriving DecidableEq

/-- df.iloc[j] row access with Python negative-index semantics. -/
def ilocRow (rows : List BtRow) (j : ℤ) : BtRow :=
  if j < 0 then rows.getD (((rows.length : ℤ) + j).toNat) ⟨0, 0, 0, 0⟩
  else rows.getD j.toNat ⟨0, 0, 0, 0⟩

/-- One iteration of the backtest loop at day i: buy when flat and the
buy signal holds, sell when long and the sell signal holds, otherwise
carry the previous row forward; then portfolio_value = capital +
holdings * price. -/
def btStep (prices : List ℚ) (buySig sellSig : List Bool)
    (acc : List BtRow × ℤ) (i : ℕ) : List BtRow × ℤ :=
  let rows := acc.1
  let position := acc.2
  let prev := ilocRow rows ((i : ℤ) - 1)
  let p := prices.getD i 0
  if position = 0 ∧ buySig.getD i false then
    (rows.set i ⟨1, 0, prev.capital / p, 0 + prev.capital / p * p⟩, 1)
  else if position = 1 ∧ sellSig.getD i false then
    (rows.set i ⟨0, prev.holdings * p, 0, prev.holdings * p + 0 * p⟩, 0)
  else
    (rows.set i ⟨prev.position, prev.capital, prev.holdings,
      prev.capital + prev.holdings * p⟩, position)

/-- The backtest simulation: every row starts as FLAT with the initial
capital, then days lookback, ..., n-1 are simulated in order. -/
def btRun (prices : List ℚ) (buySig sellSig : List Bool) (lookback : ℕ)
    (init : ℚ) : List BtRow :=
  ((List.range' lookback (prices.length - lookback)).foldl
    (btStep prices buySig sellSig)
    (List.replicate prices.length ⟨0, init, 0, init⟩, 0)).1

/-- num_trades: df['position'].diff().abs() then count of entries > 0;
the first diff entry is NaN and NaN > 0 is False, so this counts the
adjacent position changes. -/
def countPosChanges (rows : List BtRow) : ℕ :=
  (List.zipWith (fun a b => decide (a.position ≠ b.position)) rows rows.tail).count true

/-- Metrics record returned by backtest_strategy. -/
structure BtResult where
  total_return : ℚ
  buy_hold_return : ℚ
  num_trades : ℕ
  initial_capital : ℚ
  ending_capital : ℚ
deriving DecidableEq

/-- MeanReversionStrategy.backtest_strategy for a given signal frame:
none models the IndexError raised when row lookback or row -1 does not
exist. -/
def backtest_strategy (prices : List ℚ) (buySig sellSig : List Bool)
    (lookback : ℕ) (init : ℚ) : Option BtResult :=
  let rows := btRun prices buySig sellSig lookback init
  match rows.get? lookback, rows.getLast? with
  | some startRow, some lastRow =>
    some ⟨(lastRow.value / startRow.value - 1) * 100,
      (prices.getLast?.getD 0 / prices.getD lookback 0 - 1) * 100,
      countPosChanges rows, init, lastRow.value⟩
  | _, _ => none

/-! ## Moving-average crossover strategy
    (src/dexy/tools/mean_reversion/algo_trading_toolkit.py) -/

/-- Elementwise subtraction of two NaN-able columns. -/
def optSub : Option ℚ → Option ℚ → Option ℚ
  | some a, some b => some (a - b)
  | _, _ => none

/-- df['ma_diff'] = fast_ma - slow_ma. -/
def maDiffCol (xs : List ℚ) (fast slow : ℕ) : List (Option ℚ) :=
  List.zipWith optSub (rollingMean xs fast) (rollingMean xs slow)

/-- signal = 1 where ma_diff > 0, -1 where ma_diff < 0, else 0; a NaN
diff compares False on both sides and keeps the initialized 0. -/
def signalOfDiff : Option ℚ → ℤ
  | none => 0
  | some d => if 0 < d then 1 else if d < 0 then -1 else 0

/-- df['signal']. -/
def maSignalCol (xs : List ℚ) (fast slow : ℕ) : List ℤ :=
  (maDiffCol xs fast slow).map signalOfDiff

/-- series.shift(1).fillna(0). -/
def shiftFill (s : List ℤ) : List ℤ :=
  if s = [] then [] else 0 :: s.dropLast

/-- df['position'] = signal.shift(1).fillna(0). -/
def maPositionCol (xs : List ℚ) (fast slow : ℕ) : List ℤ :=
  shiftFill (maSignalCol xs fast slow)

/-- df['position'].diff(): NaN (none) in the first row, consecutive
differences afterwards. -/
def pdDiffCol (pos : List ℤ) : List (Option ℤ) :=
  match pos with
  | [] => []
  | _ :: _ => none :: List.zipWith (fun a b => some (b - a)) pos pos.tail

/-- num_trades = len(df[df['position'].diff() != 0]): pandas `NaN != 0`
evaluates True, so the first row is always selected. -/
def maNumTrades (pos : List ℤ) : ℕ :=
  (pdDiffCol pos).countP (fun d => decide (d ≠ some 0))

/-- The last `w` elements of a list (the window the spec's formulas refer
to). -/
def lastWindowSpec (xs : List ℚ) (w : ℕ) : List ℚ :=
  xs.drop (xs.length - w)

/-! ## Theorems for claims C8 and C9 -/

/-- Claim C9: get_risk_multiplier returns 2.0 for risk_score ≥ 5, 1.5 for
2 ≤ risk_score < 5 and 1.0 for risk_score < 2 (in particular 2.0 at 5 and
1.0 at 1), and apply_risk_multiplier returns the original signal value
together with signal_value times that multiplier. -/
theorem c9_risk_multiplier (r s : ℚ) :
    (5 ≤ r → (get_risk_multiplier r).multiplier = 2) ∧
    (2 ≤ r → r < 5 → (get_risk_multiplier r).multiplier = 3 / 2) ∧
    (r < 2 → (get_risk_multiplier r).multiplier = 1) ∧
    (get_risk_multiplier 5).multiplier = 2 ∧
    (get_risk_multiplier 1).multiplier = 1 ∧
    (apply_risk_multiplier s r).adjusted_value
      = s * (get_risk_multiplier r).multiplier ∧
    (apply_risk_multiplier s r).original_value = s := by
  refine ⟨?_, ?_, ?_, by decide, by decide, ?_, ?_⟩
  · intro h
    simp only [get_risk_multiplier]
    rw [if_pos (by exact_mod_cast h)]
  · intro h2 h5
    simp only [get_risk_multiplier]
    rw [if_neg (by simpa using not_le.mpr h5), if_pos (by exact_mod_cast h2)]
  · intro h
    simp only [get_risk_multiplier]
    rw [if_neg (by simpa using not_le.mpr (lt_of_lt_of_le h (by norm_num))),
      if_neg (by simpa using not_le.mpr h)]
  · simp [apply_risk_multiplier]
  · simp [apply_risk_multiplier]

/-- Clamping to [-10, 10] is monotone. -/
theorem clamp10_mono {x y : ℚ} (h : x ≤ y) :
    max (min x 10) (-10) ≤ max (min y 10) (-10) :=
  max_le_max (min_le_min h le_rfl) le_rfl

/-- The z-score component of the composite score is antitone. -/
theorem zComp_anti {z z2 : ℚ} (h : z ≤ z2) :
    max (min (-z2) 3) (-3) ≤ max (min (-z) 3) (-3) :=
  max_le_max (min_le_min (by linarith) le_rfl) le_rfl

/-- The RSI component of the composite score is antitone. -/
theorem rsiComp_anti {r r2 : ℚ} (h : r ≤ r2) :
    (if r2 ≤ 30 then 3 * (30 - r2) / 30
     else if r2 ≥ 70 then -3 * (r2 - 70) / 30 else 0)
      ≤ (if r ≤ 30 then 3 * (30 - r) / 30
         else if r ≥ 70 then -3 * (r - 70) / 30 else 0) := by
  split_ifs <;> linarith

/-- Claim C8 counterexample: the composite score is not nonincreasing in
percent_b: raising percent_b from 0 to 1/4 (others neutral) raises the
score from 0 to 1, because the %B component jumps upward at the band
boundary. -/
theorem c8_counterexample :
    (0 : ℚ) < 1 / 4 ∧
      calculate_mean_reversion_score 0 50 0
        < calculate_mean_reversion_score 0 50 (1 / 4) := by
  constructor
  · norm_num
  · have h1 : calculate_mean_reversion_score 0 50 0 = 0 := by
      simp only [calculate_mean_reversion_score]
      norm_num [min_def, max_def]
    have h2 : calculate_mean_reversion_score 0 50 (1 / 4) = 1 := by
      simp only [calculate_mean_reversion_score]
      norm_num [min_def, max_def]
    rw [h1, h2]
    norm_num

/-- Claim C8 (amended): the composite score always lies in [-10, 10] and
is nonincreasing in z_score and in rsi over their whole ranges; in
percent_b it is nonincreasing only within each band region (percent_b ≤ 0,
0 < percent_b < 1, percent_b ≥ 1), with upward jumps at the region
boundaries 0 and 1. -/
theorem c8_score_bounds_monotone (z r b z2 r2 b2 : ℚ) :
    (-10 ≤ calculate_mean_reversion_score z r b ∧
      calculate_mean_reversion_score z r b ≤ 10) ∧
    (z ≤ z2 → calculate_mean_reversion_score z2 r b
      ≤ calculate_mean_reversion_score z r b) ∧
    (r ≤ r2 → calculate_mean_reversion_score z r2 b
      ≤ calculate_mean_reversion_score z r b) ∧
    (b ≤ b2 → b2 ≤ 0 → calculate_mean_reversion_score z r b2
      ≤ calculate_mean_reversion_score z r b) ∧
    (0 < b → b ≤ b2 → b2 < 1 → calculate_mean_reversion_score z r b2
      ≤ calculate_mean_reversion_score z r b) ∧
    (1 ≤ b → b ≤ b2 → calculate_mean_reversion_score z r b2
      ≤ calculate_mean_reversion_score z r b) := by
  simp only [calculate_mean_reversion_score]
  refine ⟨⟨le_max_right _ _, max_le (min_le_right _ _) (by norm_num)⟩,
    ?_, ?_, ?_, ?_, ?_⟩
  · intro h
    exact clamp10_mono (add_le_add_right (add_le_add_right (zComp_anti h) _) _)
  · intro h
    exact clamp10_mono (add_le_add_right (add_le_add_left (rsiComp_anti h) _) _)
  · intro hb hb2
    refine clamp10_mono (add_le_add_left ?_ _)
    have h1 : b ≤ 0 := le_trans hb hb2
    rw [if_pos hb2, if_pos h1]
    have habs : |b2| ≤ |b| := by
      rw [abs_of_nonpos hb2, abs_of_nonpos h1]; linarith
    have := min_le_min habs (le_refl (1 : ℚ))
    linarith
  · intro h0 hb hb2
    refine clamp10_mono (add_le_add_left ?_ _)
    have n1 : ¬ b2 ≤ 0 := not_le.mpr (by linarith)
    have n2 : ¬ b2 ≥ 1 := by rw [ge_iff_le]; exact not_le.mpr (by linarith)
    have n3 : ¬ b ≤ 0 := not_le.mpr h0
    have n4 : ¬ b ≥ 1 := by rw [ge_iff_le]; exact not_le.mpr (by linarith)
    rw [if_neg n1, if_neg n2, if_neg n3, if_neg n4]
    linarith
  · intro h1 hb
    refine clamp10_mono (add_le_add_left ?_ _)
    have h2 : b2 ≥ 1 := ge_iff_le.mpr (le_trans h1 hb)
    have n1 : ¬ b2 ≤ 0 := not_le.mpr (by linarith)
    have n3 : ¬ b ≤ 0 := not_le.mpr (by linarith)
    rw [if_neg n1, if_pos h2, if_neg n3, if_pos (ge_iff_le.mpr h1)]
    have := min_le_min (by linarith : b - 1 ≤ b2 - 1) (le_refl (1 : ℚ))
    linarith

/-- Claim C8 witness: the amended bounds and monotonicity facts
instantiated at concrete indicator values. -/
theorem c8_witness :
    (-10 ≤ calculate_mean_reversion_score 0 50 (1 / 2) ∧
      calculate_mean_reversion_score 0 50 (1 / 2) ≤ 10) ∧
    calculate_mean_reversion_score 2 50 (1 / 2)
      ≤ calculate_mean_reversion_score 1 50 (1 / 2) ∧
    calculate_mean_reversion_score 1 60 (1 / 2)
      ≤ calculate_mean_reversion_score 1 40 (1 / 2) ∧
    calculate_mean_reversion_score 1 50 (-1 / 2)
      ≤ calculate_mean_reversion_score 1 50 (-1) ∧
    calculate_mean_reversion_score 1 50 (1 / 2)
      ≤ calculate_mean_reversion_score 1 50 (1 / 4) ∧
    calculate_mean_reversion_score 1 50 2
      ≤ calculate_mean_reversion_score 1 50 1 :=
  ⟨(c8_score_bounds_monotone 0 50 (1 / 2) 0 0 0).1,
   (c8_score_bounds_monotone 1 50 (1 / 2) 2 0 0).2.1 (by norm_num),
   (c8_score_bounds_monotone 1 40 (1 / 2) 0 60 0).2.2.1 (by norm_num),
   (c8_score_bounds_monotone 1 50 (-1) 0 0 (-1 / 2)).2.2.2.1 (by norm_num)
     (by norm_num),
   (c8_score_bounds_monotone 1 50 (1 / 4) 0 0 (1 / 2)).2.2.2.2.1 (by norm_num)
     (by norm_num) (by norm_num),
   (c8_score_bounds_monotone 1 50 1 0 0 2).2.2.2.2.2 (by norm_num)
     (by norm_num)⟩

/-- Claim C9 witness: the multiplier bands at risk scores 6, 3 and 1, and
an application at signal value 4 with risk score 3. -/
theorem c9_witness :
    (get_risk_multiplier 6).multiplier = 2 ∧
    (get_risk_multiplier 3).multiplier = 3 / 2 ∧
    (get_risk_multiplier 1).multiplier = 1 ∧
    (apply_risk_multiplier 4 3).adjusted_value
      = 4 * (get_risk_multiplier 3).multiplier :=
  ⟨(c9_risk_multiplier 6 4).1 (by norm_num),
   (c9_risk_multiplier 3 4).2.1 (by norm_num) (by norm_num),
   (c9_risk_multiplier 1 4).2.2.1 (by norm_num),
   (c9_risk_multiplier 3 4).2.2.2.2.2.1⟩

/-! ## Lemmas about the statistics helpers -/

theorem npVar_nil : npVar [] = 0 := by
  simp [npVar]

theorem npVar_nonneg (xs : List ℚ) : 0 ≤ npVar xs := by
  unfold npVar
  apply div_nonneg
  · apply List.sum_nonneg
    intro x hx
    simp only [List.mem_map] at hx
    obtain ⟨y, _, rfl⟩ := hx
    positivity
  · positivity

theorem npStd_eq_zero_iff (xs : List ℚ) : npStd xs = 0 ↔ npVar xs = 0 := by
  unfold npStd
  rw [Real.sqrt_eq_zero (by exact_mod_cast npVar_nonneg xs)]
  exact Rat.cast_eq_zero

theorem pyTail_ofNat {α : Type} (xs : List α) (w : ℕ) (hw : 1 ≤ w) :
    pyTail xs (-(w : ℤ)) = xs.drop (xs.length - w) := by
  unfold pyTail
  rw [if_pos (by omega : -(w : ℤ) < 0)]
  congr 1
  omega

theorem npMean_replicate {n : ℕ} {c : ℚ} (h : 1 ≤ n) :
    npMean (List.replicate n c) = c := by
  unfold npMean
  rw [List.sum_replicate, List.length_replicate, nsmul_eq_mul,
    mul_div_cancel_left₀ _ (Nat.cast_ne_zero.mpr (by omega) : (n : ℚ) ≠ 0)]

theorem npMean_replicate_zero (n : ℕ) : npMean (List.replicate n (0 : ℚ)) = 0 := by
  unfold npMean
  rw [List.sum_replicate]
  simp

theorem npVar_replicate (n : ℕ) (c : ℚ) : npVar (List.replicate n c) = 0 := by
  rcases Nat.eq_zero_or_pos n with h | h
  · subst h
    simpa using npVar_nil
  · unfold npVar
    rw [List.map_replicate, npMean_replicate h]
    simp

theorem npStd_replicate (n : ℕ) (c : ℚ) : npStd (List.replicate n c) = 0 := by
  unfold npStd
  rw [npVar_replicate]
  simp

theorem npStd_pyTail_replicate (n : ℕ) (c : ℚ) (s : ℤ) :
    npStd (pyTail (List.replicate n c) s) = 0 := by
  unfold pyTail
  split <;> rw [List.drop_replicate] <;> exact npStd_replicate ..

theorem npMean_pyTail_replicate_zero (m : ℕ) (s : ℤ) :
    npMean (pyTail (List.replicate m (0 : ℚ)) s) = 0 := by
  unfold pyTail
  split <;> rw [List.drop_replicate] <;> exact npMean_replicate_zero _

theorem getLast_replicate {n : ℕ} {c : ℚ} (h : 1 ≤ n) :
    (List.replicate n c).getLast?.getD 0 = c := by
  cases n with
  | zero => omega
  | succ m => simp [List.getLast?_replicate]

theorem npDiff_replicate (n : ℕ) (c : ℚ) :
    npDiff (List.replicate n c) = List.replicate (n - 1) 0 := by
  unfold npDiff
  rw [List.tail_replicate, List.zipWith_replicate]
  congr 1
  · omega
  · simp

/-! ## Theorems for claims C1, C2 and C7 -/

/-- Claim C1: with at least `window` prices and a nonzero population
standard deviation over the last `window` prices, calculate_z_score
returns (last_price - mean) / std with mean and population std taken
over the last `window` prices; with fewer than `window` prices it fails
with the insufficient-data error. -/
theorem c1_z_score (prices : List ℚ) (w : ℕ) :
    (w ≤ prices.length →
      npVar (lastWindowSpec prices w) ≠ 0 →
      calculate_z_score prices (w : ℤ)
        = .ok ((((prices.getLast?.getD 0 : ℚ) : ℝ)
              - ((npMean (lastWindowSpec prices w) : ℚ) : ℝ))
            / npStd (lastWindowSpec prices w))) ∧
    (prices.length < w →
      calculate_z_score prices (w : ℤ)
        = .error (.insufficientData (w : ℤ))) := by
  constructor
  · intro hlen hvar
    have hw : 1 ≤ w := by
      by_contra hw0
      have hw1 : w = 0 := by omega
      apply hvar
      unfold lastWindowSpec
      rw [hw1, Nat.sub_zero, List.drop_length]
      exact npVar_nil
    have hs : pyTail prices (-(w : ℤ)) = lastWindowSpec prices w :=
      pyTail_ofNat prices w hw
    simp only [calculate_z_score]
    rw [if_neg (by exact_mod_cast not_lt.mpr hlen), hs,
      if_neg (fun h => hvar ((npStd_eq_zero_iff _).mp h))]
  · intro h
    simp only [calculate_z_score]
    rw [if_pos (by exact_mod_cast h)]

/-- Claim C1 witness: the formula at prices [1,1,3,3] with window 4
(variance 1), and the failure at a single price with window 2. -/
theorem c1_witness :
    calculate_z_score [1, 1, 3, 3] ((4 : ℕ) : ℤ)
      = .ok ((((([1, 1, 3, 3] : List ℚ).getLast?.getD 0 : ℚ) : ℝ)
            - ((npMean (lastWindowSpec [1, 1, 3, 3] 4) : ℚ) : ℝ))
          / npStd (lastWindowSpec [1, 1, 3, 3] 4)) ∧
    calculate_z_score [1] ((2 : ℕ) : ℤ)
      = .error (.insufficientData ((2 : ℕ) : ℤ)) :=
  ⟨(c1_z_score [1, 1, 3, 3] 4).1 (by norm_num)
     (by norm_num [npVar, npMean, lastWindowSpec]),
   (c1_z_score [1] 2).2 (by norm_num)⟩

/-- Claim C2: on a constant price series that is long enough, no error is
raised and the degenerate fallbacks are returned exactly: z-score 0,
Bollinger percent_b 1/2 (with all bands collapsed onto the price), and
RSI 100. -/
theorem c2_constant_series (c : ℚ) (n w : ℕ) (k : ℚ) (hw : 1 ≤ w) :
    (w ≤ n → calculate_z_score (List.replicate n c) (w : ℤ) = .ok 0) ∧
    (w ≤ n → calculate_bollinger_bands (List.replicate n c) (w : ℤ) k
      = .ok ⟨(c : ℝ), c, c, c, 1 / 2⟩) ∧
    (w + 1 ≤ n → calculate_rsi (List.replicate n c) (w : ℤ) = .ok 100) := by
  have hlen : (List.replicate n c).length = n := List.length_replicate ..
  refine ⟨?_, ?_, ?_⟩
  · intro hwn
    simp only [calculate_z_score, hlen]
    rw [if_neg (by exact_mod_cast not_lt.mpr hwn),
      if_pos (npStd_pyTail_replicate ..)]
  · intro hwn
    have h1n : 1 ≤ n := le_trans hw hwn
    have hs : pyTail (List.replicate n c) (-(w : ℤ)) = List.replicate w c := by
      rw [pyTail_ofNat _ w hw, hlen, List.drop_replicate]
      congr 1
      omega
    simp only [calculate_bollinger_bands, hlen]
    rw [if_neg (by exact_mod_cast not_lt.mpr hwn), hs, npStd_replicate,
      npMean_replicate hw, getLast_replicate h1n]
    norm_num
  · intro hw1n
    simp only [calculate_rsi, hlen]
    rw [if_neg (by omega), npDiff_replicate]
    have hg : (List.replicate (n - 1) (0 : ℚ)).map
        (fun d => if 0 < d then d else 0) = List.replicate (n - 1) 0 := by
      rw [List.map_replicate]
      norm_num
    have hl : (List.replicate (n - 1) (0 : ℚ)).map
        (fun d => if d < 0 then -d else 0) = List.replicate (n - 1) 0 := by
      rw [List.map_replicate]
      norm_num
    rw [hg, hl, if_pos (npMean_pyTail_replicate_zero ..)]

/-- Claim C2 witness: constant prices [5,5,5] with window 2 give z-score
0 and percent_b 1/2 (bands collapsed), and RSI 100. -/
theorem c2_witness :
    calculate_z_score [5, 5, 5] ((2 : ℕ) : ℤ) = .ok 0 ∧
    calculate_bollinger_bands [5, 5, 5] ((2 : ℕ) : ℤ) 2
      = .ok ⟨(5 : ℝ), 5, 5, 5, 1 / 2⟩ ∧
    calculate_rsi [5, 5, 5] ((2 : ℕ) : ℤ) = .ok 100 := by
  have h := c2_constant_series 5 3 2 2 (by norm_num)
  exact ⟨h.1 (by norm_num), h.2.1 (by norm_num), h.2.2 (by norm_num)⟩

/-- Claim C7 counterexample: calculate_z_score with window 0 on [1, 2]
and calculate_bollinger_bands with num_std 0 on [1, 2, 3] both return a
value instead of failing with a parameter error. -/
theorem c7_counterexample :
    (calculate_z_score [1, 2] 0).isOk = true ∧
    (calculate_bollinger_bands [1, 2, 3] 3 0).isOk = true := by
  constructor
  · simp only [calculate_z_score]
    rw [if_neg (by norm_num)]
    split <;> rfl
  · simp only [calculate_bollinger_bands]
    rw [if_neg (by norm_num)]
    rfl

/-- Claim C7 (amended): the indicator functions perform no parameter
validation at all; the only guards are the data-length checks, so on any
nonempty price list a window ≤ 0 (and any num_std, including
num_std ≤ 0) yields a computed value rather than an
InvalidParameterError, and the RSI (which never indexes the last price)
does so on every price list. -/
theorem c7_no_param_validation :
    (∀ (prices : List ℚ) (w : ℤ), prices ≠ [] → w ≤ 0 →
      (calculate_z_score prices w).isOk = true) ∧
    (∀ (prices : List ℚ) (w : ℤ) (k : ℚ), prices ≠ [] →
      w ≤ (prices.length : ℤ) →
      (calculate_bollinger_bands prices w k).isOk = true) ∧
    (∀ (prices : List ℚ) (w : ℤ), w < 0 →
      (calculate_rsi prices w).isOk = true) := by
  refine ⟨?_, ?_, ?_⟩
  · intro prices w hne hw
    have h0 : (0 : ℤ) ≤ prices.length := by positivity
    simp only [calculate_z_score]
    rw [if_neg (by omega)]
    split <;> rfl
  · intro prices w k hne hwl
    simp only [calculate_bollinger_bands]
    rw [if_neg (not_lt.mpr hwl)]
    rfl
  · intro prices w hw
    have h0 : (0 : ℤ) ≤ prices.length := by positivity
    simp only [calculate_rsi]
    rw [if_neg (by omega)]
    split <;> rfl

/-- Claim C7 witness: a negative z-score window, a nonpositive Bollinger
num_std and a negative RSI window, all returning values. -/
theorem c7_witness :
    (calculate_z_score [5] (-1)).isOk = true ∧
    (calculate_bollinger_bands [1, 2] 2 (-3)).isOk = true ∧
    (calculate_rsi [1, 2] (-2)).isOk = true :=
  ⟨c7_no_param_validation.1 [5] (-1) (by simp) (by norm_num),
   c7_no_param_validation.2.1 [1, 2] 2 (-3) (by simp) (by norm_num),
   c7_no_param_validation.2.2 [1, 2] (-2) (by norm_num)⟩

/-! ## Theorems for claims C5 and C6 -/

/-- On the window [1, 2, 3] the strategy's rolling std is 1 (sample,
divide by N-1) while the population std is sqrt(2/3) < 1. -/
theorem pdStd_npStd_separating : pdStd [1, 2, 3] = 1 ∧ npStd [1, 2, 3] < 1 := by
  constructor
  · unfold pdStd
    rw [show sampleVar [1, 2, 3] = 1 by norm_num [sampleVar, npMean]]
    simp
  · unfold npStd
    rw [show npVar [1, 2, 3] = 2 / 3 by norm_num [npVar, npMean]]
    rw [show (((2 : ℚ) / 3 : ℚ) : ℝ) = 2 / 3 by norm_num]
    calc Real.sqrt (2 / 3) < Real.sqrt 1 :=
          Real.sqrt_lt_sqrt (by norm_num) (by norm_num)
    _ = 1 := Real.sqrt_one

/-- Claim C5 counterexample: the advanced strategy's rolling std column
on prices [1, 2, 3] with lookback 3 does not hold the population standard
deviation of the window: it holds sqrt(1) = 1 (sample std) instead of
sqrt(2/3). -/
theorem c5_counterexample :
    (rollingStd [1, 2, 3] 3).getD 2 none
      ≠ some (npStd (lastWindowSpec [1, 2, 3] 3)) := by
  have hl : (rollingStd [1, 2, 3] 3).getD 2 none = some (pdStd [1, 2, 3]) := rfl
  have hw : lastWindowSpec [1, 2, 3] 3 = [1, 2, 3] := rfl
  rw [hl, hw]
  intro h
  have h2 : pdStd [1, 2, 3] = npStd [1, 2, 3] := Option.some.inj h
  have h3 := pdStd_npStd_separating
  rw [h3.1] at h2
  rw [← h2] at h3
  exact lt_irrefl 1 h3.2

/-- Claim C5 (amended): the core indicator functions use the population
standard deviation (np.std squares to the divide-by-N variance), but the
advanced strategy's rolling std column uses the pandas sample standard
deviation (its square is the divide-by-(N-1) variance), and the two
genuinely differ, e.g. on the window [1, 2, 3]. -/
theorem c5_std_conventions :
    (∀ xs : List ℚ, xs ≠ [] →
      npStd xs ^ 2 * (xs.length : ℝ)
        = (((xs.map (fun x => (x - npMean xs) ^ 2)).sum : ℚ) : ℝ)) ∧
    (∀ xs : List ℚ, 2 ≤ xs.length →
      pdStd xs ^ 2 * ((xs.length : ℝ) - 1)
        = (((xs.map (fun x => (x - npMean xs) ^ 2)).sum : ℚ) : ℝ)) ∧
    rollingStd [1, 2, 3] 3 = [none, none, some (pdStd [1, 2, 3])] ∧
    pdStd [1, 2, 3] ≠ npStd (lastWindowSpec [1, 2, 3] 3) := by
  refine ⟨?_, ?_, rfl, ?_⟩
  · intro xs hxs
    have hn : (xs.length : ℝ) ≠ 0 := by
      exact_mod_cast List.length_pos.mpr hxs |>.ne'
    unfold npStd
    rw [Real.sq_sqrt (by exact_mod_cast npVar_nonneg xs)]
    unfold npVar
    push_cast
    rw [div_mul_cancel₀ _ hn]
  · intro xs h2
    have hn : (xs.length : ℝ) - 1 ≠ 0 := by
      have : (2 : ℝ) ≤ xs.length := by exact_mod_cast h2
      linarith
    have hsv : 0 ≤ sampleVar xs := by
      unfold sampleVar
      apply div_nonneg
      · apply List.sum_nonneg
        intro x hx
        simp only [List.mem_map] at hx
        obtain ⟨y, _, rfl⟩ := hx
        positivity
      · have : (2 : ℚ) ≤ xs.length := by exact_mod_cast h2
        linarith
    unfold pdStd
    rw [Real.sq_sqrt (by exact_mod_cast hsv)]
    unfold sampleVar
    push_cast
    rw [div_mul_cancel₀ _ hn]
  · have hw : lastWindowSpec [1, 2, 3] 3 = [1, 2, 3] := rfl
    rw [hw]
    intro h
    have h3 := pdStd_npStd_separating
    rw [h3.1] at h
    rw [← h] at h3
    exact lt_irrefl 1 h3.2

/-- Claim C5 witness: the two variance conventions instantiated at the
two-element list [1, 2]. -/
theorem c5_witness :
    npStd [1, 2] ^ 2 * (([1, 2] : List ℚ).length : ℝ)
      = (((([1, 2] : List ℚ).map (fun x => (x - npMean [1, 2]) ^ 2)).sum : ℚ) : ℝ) ∧
    pdStd [1, 2] ^ 2 * ((([1, 2] : List ℚ).length : ℝ) - 1)
      = (((([1, 2] : List ℚ).map (fun x => (x - npMean [1, 2]) ^ 2)).sum : ℚ) : ℝ) :=
  ⟨c5_std_conventions.1 [1, 2] (by simp),
   c5_std_conventions.2.1 [1, 2] (by simp)⟩

/-- Claim C6 counterexample: an OHLC series of exactly `window` candles
is not rejected: with window 2 and two candles,
calculate_average_true_range returns the mean of the single available
true range instead of failing. -/
theorem c6_counterexample :
    calculate_average_true_range [⟨1, 3, 1, 2⟩, ⟨2, 4, 2, 3⟩] 2 = .ok 2 := by
  norm_num [calculate_average_true_range, trueRangeList, pyTail, npMean, abs,
    max_def, show ((-1 : ℤ)).toNat = 0 from rfl]

/-- Claim C6 (amended): calculate_average_true_range only requires
`window` candles (failing exactly when there are fewer than `window`);
with at least `window` candles it returns the mean of the last
min(window, len-1) true ranges, where the true-range list has one entry
per consecutive candle pair, max(high-low, |high-prev_close|,
|low-prev_close|).  The separate-arrays calculate_atr does require
window+1 points and then averages the last `window` true ranges. -/
theorem c6_atr (ohlc : List OHLCData) (highs lows closes : List ℚ) (w : ℕ)
    (hw : 1 ≤ w) :
    ((ohlc.length : ℤ) < w →
      calculate_average_true_range ohlc (w : ℤ)
        = .error (.insufficientData (w : ℤ))) ∧
    (w ≤ ohlc.length →
      calculate_average_true_range ohlc (w : ℤ)
        = .ok (npMean ((trueRangeList ohlc).drop
            ((trueRangeList ohlc).length - w)))) ∧
    (trueRangeList ohlc).length = ohlc.length - 1 ∧
    (highs.length = closes.length → lows.length = closes.length →
      ((closes.length : ℤ) < (w : ℤ) + 1 →
        calculate_atr highs lows closes (w : ℤ)
          = .error (.insufficientData ((w : ℤ) + 1))) ∧
      ((w : ℤ) + 1 ≤ closes.length →
        calculate_atr highs lows closes (w : ℤ)
          = .ok (npMean ((trueRangeList3 highs lows closes).drop
              ((trueRangeList3 highs lows closes).length - w))))) := by
  refine ⟨?_, ?_, ?_, ?_⟩
  · intro h
    simp only [calculate_average_true_range]
    rw [if_pos h]
  · intro h
    simp only [calculate_average_true_range]
    rw [if_neg (by exact_mod_cast not_lt.mpr h), pyTail_ofNat _ w hw]
  · simp [trueRangeList]
  · intro h1 h2
    constructor
    · intro h
      simp only [calculate_atr]
      rw [if_pos (Or.inr (Or.inr h))]
    · intro h
      simp only [calculate_atr]
      rw [if_neg (by simp only [h1, h2]; omega),
        pyTail_ofNat _ w hw]

/-- Claim C6 witness: the amended ATR behaviour at concrete inputs: a
one-candle series is rejected for window 2, a three-candle series is
accepted for window 2, and the separate-arrays variant rejects 2 points
for window 2 but accepts 3. -/
theorem c6_witness :
    calculate_average_true_range [⟨1, 2, 1, 2⟩] ((2 : ℕ) : ℤ)
      = .error (.insufficientData ((2 : ℕ) : ℤ)) ∧
    calculate_average_true_range [⟨1, 3, 1, 2⟩, ⟨2, 4, 2, 3⟩, ⟨3, 6, 3, 5⟩]
        ((2 : ℕ) : ℤ)
      = .ok (npMean ((trueRangeList
          [⟨1, 3, 1, 2⟩, ⟨2, 4, 2, 3⟩, ⟨3, 6, 3, 5⟩]).drop
            ((trueRangeList
              [⟨1, 3, 1, 2⟩, ⟨2, 4, 2, 3⟩, ⟨3, 6, 3, 5⟩]).length - 2))) ∧
    calculate_atr [1, 2] [0, 1] [1, 2] ((2 : ℕ) : ℤ)
      = .error (.insufficientData (((2 : ℕ) : ℤ) + 1)) ∧
    calculate_atr [1, 2, 3] [0, 1, 2] [1, 2, 3] ((2 : ℕ) : ℤ)
      = .ok (npMean ((trueRangeList3 [1, 2, 3] [0, 1, 2] [1, 2, 3]).drop
          ((trueRangeList3 [1, 2, 3] [0, 1, 2] [1, 2, 3]).length - 2))) :=
  ⟨(c6_atr [⟨1, 2, 1, 2⟩] [] [] [] 2 (by norm_num)).1 (by norm_num),
   (c6_atr [⟨1, 3, 1, 2⟩, ⟨2, 4, 2, 3⟩, ⟨3, 6, 3, 5⟩] [] [] [] 2
      (by norm_num)).2.1 (by norm_num),
   ((c6_atr [] [1, 2] [0, 1] [1, 2] 2 (by norm_num)).2.2.2 rfl rfl).1
      (by norm_num),
   ((c6_atr [] [1, 2, 3] [0, 1, 2] [1, 2, 3] 2 (by norm_num)).2.2.2 rfl rfl).2
      (by norm_num)⟩

/-! ## Theorems for claim C10 -/

/-- If all adjacent positions are equal, the consecutive-difference part
of the trade count is zero. -/
theorem countP_zip_chain (pos : List ℤ)
    (h : List.Chain' (fun a b => a = b) pos) :
    (List.zipWith (fun a b => some (b - a)) pos pos.tail).countP
      (fun d => decide (d ≠ some 0)) = 0 := by
  induction pos with
  | nil => rfl
  | cons a t ih =>
    cases t with
    | nil => rfl
    | cons b t2 =>
      rw [List.chain'_cons] at h
      obtain ⟨hab, h2⟩ := h
      have ih2 := ih h2
      simp only [List.tail_cons] at ih2 ⊢
      rw [List.zipWith_cons_cons, List.countP_cons, ih2]
      simp [hab]

/-- On a nonempty position column the first diff entry is NaN and is
always counted. -/
theorem maNumTrades_cons (a : ℤ) (l : List ℤ) :
    maNumTrades (a :: l)
      = (List.zipWith (fun x y => some (y - x)) (a :: l) l).countP
          (fun d => decide (d ≠ some 0)) + 1 := by
  unfold maNumTrades pdDiffCol
  rw [List.countP_cons]
  simp

/-- Claim C10: on every nonempty price series (long enough that the
initial-capital row exists inside the frame), the MA-crossover backtest
reports num_trades ≥ 1, because the first position diff is NaN and
NaN != 0 holds in pandas; when the position column never changes the
count is exactly 1. -/
theorem c10_ma_num_trades (prices : List ℚ) (fast slow : ℕ)
    (hne : prices ≠ []) (hper : max fast slow < prices.length) :
    1 ≤ maNumTrades (maPositionCol prices fast slow) ∧
    (List.Chain' (fun a b => a = b) (maPositionCol prices fast slow) →
      maNumTrades (maPositionCol prices fast slow) = 1) := by
  have hsig : (maSignalCol prices fast slow).length = prices.length := by
    simp [maSignalCol, maDiffCol, rollingMean, rollingWindows]
  have hsne : maSignalCol prices fast slow ≠ [] := by
    intro h
    rw [h] at hsig
    exact hne (List.length_eq_zero.mp hsig.symm)
  have hpos : maPositionCol prices fast slow
      = 0 :: (maSignalCol prices fast slow).dropLast := by
    unfold maPositionCol shiftFill
    rw [if_neg hsne]
  constructor
  · rw [hpos, maNumTrades_cons]
    exact Nat.le_add_left 1 _
  · intro hch
    rw [hpos] at hch
    rw [hpos, maNumTrades_cons]
    have h0 := countP_zip_chain (0 :: (maSignalCol prices fast slow).dropLast) hch
    simp only [List.tail_cons] at h0
    rw [h0]

/-- Claim C10 witness: the trade count on prices [1, 2, 3] with fast
period 1 and slow period 2 is at least 1. -/
theorem c10_witness : 1 ≤ maNumTrades (maPositionCol [1, 2, 3] 1 2) :=
  (c10_ma_num_trades [1, 2, 3] 1 2 (by simp) (by norm_num)).1

/-! ## Lemmas about the backtest state machine -/

theorem set_replicate_self {α : Type} (n i : ℕ) (a : α) :
    (List.replicate n a).set i a = List.replicate n a := by
  induction n generalizing i with
  | zero => rfl
  | succ k ih =>
    cases i with
    | zero => rfl
    | succ i2 =>
      show (a :: List.replicate k a).set (i2 + 1) a = a :: List.replicate k a
      rw [List.set_cons_succ, ih]

theorem ilocRow_replicate {n : ℕ} {r : BtRow} {z : ℤ} (hn : 1 ≤ n)
    (h1 : -1 ≤ z) (h2 : z < n) :
    ilocRow (List.replicate n r) z = r := by
  unfold ilocRow
  have hl : (List.replicate n r).length = n := List.length_replicate ..
  split
  · rw [List.getD_eq_getElem _ _ (by rw [hl]; omega), List.getElem_replicate]
  · rw [List.getD_eq_getElem _ _ (by rw [hl]; omega), List.getElem_replicate]

theorem ilocRow_eq_getD (rows : List BtRow) (i : ℕ) (hi : 1 ≤ i) :
    ilocRow rows ((i : ℤ) - 1) = rows.getD (i - 1) ⟨0, 0, 0, 0⟩ := by
  unfold ilocRow
  rw [if_neg (by omega)]
  congr 1
  omega

theorem getD_set_self (rows : List BtRow) (i : ℕ) (a : BtRow)
    (h : i < rows.length) :
    (rows.set i a).getD i ⟨0, 0, 0, 0⟩ = a := by
  rw [List.getD_eq_getElem _ _ (by rw [List.length_set]; exact h),
    List.getElem_set_self]

/-- While FLAT with no buy signal, every simulated day carries the
initial rows forward unchanged. -/
theorem btRun_quiet_seg (prices : List ℚ) (buySig sellSig : List Bool)
    (init : ℚ) (N : ℕ) (m j : ℕ) (hlen : j + m ≤ N)
    (hquiet : ∀ i, j ≤ i → i < j + m → buySig.getD i false = false) :
    (List.range' j m).foldl (btStep prices buySig sellSig)
      (List.replicate N ⟨0, init, 0, init⟩, 0)
      = (List.replicate N ⟨0, init, 0, init⟩, 0) := by
  induction m generalizing j with
  | zero => rfl
  | succ k ih =>
    rw [List.range'_succ, List.foldl_cons]
    have hstep : btStep prices buySig sellSig
        (List.replicate N ⟨0, init, 0, init⟩, 0) j
        = (List.replicate N ⟨0, init, 0, init⟩, 0) := by
      simp only [btStep]
      rw [hquiet j le_rfl (by omega)]
      rw [if_neg (by simp), if_neg (by simp)]
      rw [ilocRow_replicate (by omega) (by omega) (by omega)]
      dsimp only
      rw [zero_mul, add_zero, set_replicate_self]
    rw [hstep]
    exact ih (j + 1) (by omega) (fun i hi1 hi2 => hquiet i (by omega) (by omega))

/-- While FLAT with capital c and no buy signal, the carry-forward loop
keeps every visited row at (FLAT, c, 0) and portfolio value c. -/
theorem btRun_flat_seg (prices : List ℚ) (buySig sellSig : List Bool)
    (c : ℚ) (m : ℕ) : ∀ (j : ℕ) (rows : List BtRow) (v : ℚ),
    1 ≤ j → j + m ≤ rows.length →
    (∀ i, j ≤ i → i < j + m → buySig.getD i false = false) →
    rows.getD (j - 1) ⟨0, 0, 0, 0⟩ = ⟨0, c, 0, v⟩ →
    ∃ rows2 : List BtRow,
      (List.range' j m).foldl (btStep prices buySig sellSig) (rows, 0)
        = (rows2, 0) ∧
      rows2.length = rows.length ∧
      rows2.getD (j + m - 1) ⟨0, 0, 0, 0⟩
        = ⟨0, c, 0, if m = 0 then v else c⟩ := by
  induction m with
  | zero =>
    intro j rows v hj hlen hquiet hprev
    refine ⟨rows, rfl, rfl, ?_⟩
    simpa using hprev
  | succ k ih =>
    intro j rows v hj hlen hquiet hprev
    rw [List.range'_succ, List.foldl_cons]
    have hstep : btStep prices buySig sellSig (rows, 0) j
        = (rows.set j ⟨0, c, 0, c + 0 * prices.getD j 0⟩, 0) := by
      simp only [btStep]
      rw [hquiet j le_rfl (by omega)]
      rw [if_neg (by simp), if_neg (by simp)]
      rw [ilocRow_eq_getD rows j hj, hprev]
    rw [hstep]
    have hrow : (⟨0, c, 0, c + 0 * prices.getD j 0⟩ : BtRow)
        = ⟨0, c, 0, c⟩ := by
      norm_num
    rw [hrow]
    obtain ⟨rows2, hf, hl, hg⟩ := ih (j + 1) (rows.set j ⟨0, c, 0, c⟩) c
      (by omega) (by rw [List.length_set]; omega)
      (fun i hi1 hi2 => hquiet i (by omega) (by omega))
      (by
        have h1 : j + 1 - 1 = j := rfl
        rw [h1]
        exact getD_set_self rows j _ (by omega))
    refine ⟨rows2, hf, by rw [hl, List.length_set], ?_⟩
    have hidx : j + 1 + k - 1 = j + (k + 1) - 1 := by omega
    rw [hidx] at hg
    rw [hg, ite_self, if_neg (Nat.succ_ne_zero k)]

/-- While LONG with holdings `hold` and no sell signal, the carry-forward
loop keeps every visited row at (LONG, 0, hold). -/
theorem btRun_long_seg (prices : List ℚ) (buySig sellSig : List Bool)
    (hold : ℚ) (m : ℕ) : ∀ (j : ℕ) (rows : List BtRow) (v : ℚ),
    1 ≤ j → j + m ≤ rows.length →
    (∀ i, j ≤ i → i < j + m → sellSig.getD i false = false) →
    rows.getD (j - 1) ⟨0, 0, 0, 0⟩ = ⟨1, 0, hold, v⟩ →
    ∃ (rows2 : List BtRow) (v2 : ℚ),
      (List.range' j m).foldl (btStep prices buySig sellSig) (rows, 1)
        = (rows2, 1) ∧
      rows2.length = rows.length ∧
      rows2.getD (j + m - 1) ⟨0, 0, 0, 0⟩ = ⟨1, 0, hold, v2⟩ := by
  induction m with
  | zero =>
    intro j rows v hj hlen hquiet hprev
    refine ⟨rows, v, rfl, rfl, ?_⟩
    simpa using hprev
  | succ k ih =>
    intro j rows v hj hlen hquiet hprev
    rw [List.range'_succ, List.foldl_cons]
    have hstep : btStep prices buySig sellSig (rows, 1) j
        = (rows.set j ⟨1, 0, hold, 0 + hold * prices.getD j 0⟩, 1) := by
      simp only [btStep]
      rw [hquiet j le_rfl (by omega)]
      rw [if_neg (by simp), if_neg (by simp)]
      rw [ilocRow_eq_getD rows j hj, hprev]
    rw [hstep]
    obtain ⟨rows2, v2, hf, hl, hg⟩ := ih (j + 1)
      (rows.set j ⟨1, 0, hold, 0 + hold * prices.getD j 0⟩)
      (0 + hold * prices.getD j 0)
      (by omega) (by rw [List.length_set]; omega)
      (fun i hi1 hi2 => hquiet i (by omega) (by omega))
      (by
        have h1 : j + 1 - 1 = j := rfl
        rw [h1]
        exact getD_set_self rows j _ (by omega))
    refine ⟨rows2, v2, hf, by rw [hl, List.length_set], ?_⟩
    have hidx : j + 1 + k - 1 = j + (k + 1) - 1 := by omega
    rw [hidx] at hg
    exact hg

theorem get?_eq_some_getD (l : List BtRow) (i : ℕ) (h : i < l.length) :
    l.get? i = some (l.getD i ⟨0, 0, 0, 0⟩) := by
  rw [List.getD_eq_getElem _ _ h, List.get?_eq_getElem?]
  exact List.getElem?_eq_getElem h

theorem getLast?_eq_some_getD (l : List BtRow) (h : l ≠ []) :
    l.getLast? = some (l.getD (l.length - 1) ⟨0, 0, 0, 0⟩) := by
  have hlen : 1 ≤ l.length := List.length_pos.mpr h
  rw [List.getLast?_eq_getElem?, List.getD_eq_getElem _ _ (by omega)]
  exact List.getElem?_eq_getElem (by omega)

theorem backtest_strategy_eq (prices : List ℚ) (buySig sellSig : List Bool)
    (lookback : ℕ) (init : ℚ) (rows : List BtRow) (startRow lastRow : BtRow)
    (hrows : btRun prices buySig sellSig lookback init = rows)
    (h1 : rows.get? lookback = some startRow)
    (h2 : rows.getLast? = some lastRow) :
    backtest_strategy prices buySig sellSig lookback init
      = some ⟨(lastRow.value / startRow.value - 1) * 100,
          (prices.getLast?.getD 0 / prices.getD lookback 0 - 1) * 100,
          countPosChanges rows, init, lastRow.value⟩ := by
  simp only [backtest_strategy]
  rw [hrows, h1, h2]

theorem countPosChanges_replicate (n : ℕ) (r : BtRow) :
    countPosChanges (List.replicate n r) = 0 := by
  unfold countPosChanges
  rw [List.tail_replicate, List.zipWith_replicate]
  simp [List.count_replicate]

theorem range'_split (s m n : ℕ) (h : m ≤ n) :
    List.range' s n = List.range' s m ++ List.range' (s + m) (n - m) := by
  have h2 := List.range'_append s m (n - m) 1
  rw [one_mul] at h2
  rw [h2]
  congr 1
  omega

/-! ## Theorems for claims C3 and C4 -/

/-- Claim C3: when neither the buy condition nor the sell condition holds
on any evaluated day, the backtest reports num_trades = 0 and
ending_capital equal to the initial capital exactly; the FLAT rows never
depend on prices. -/
theorem c3_flat_backtest (prices : List ℚ) (buySig sellSig : List Bool)
    (lookback : ℕ) (init : ℚ)
    (hbuy : ∀ i, lookback ≤ i → i < prices.length → buySig.getD i false = false)
    (hsell : ∀ i, lookback ≤ i → i < prices.length → sellSig.getD i false = false)
    (r : BtResult)
    (hr : backtest_strategy prices buySig sellSig lookback init = some r) :
    r.num_trades = 0 ∧ r.ending_capital = init := by
  have hrun : btRun prices buySig sellSig lookback init
      = List.replicate prices.length ⟨0, init, 0, init⟩ := by
    rcases le_or_lt lookback prices.length with hc | hc
    · unfold btRun
      rw [btRun_quiet_seg prices buySig sellSig init prices.length
        (prices.length - lookback) lookback (by omega)
        (fun i h1 h2 => hbuy i h1 (by omega))]
    · have hz : prices.length - lookback = 0 := by omega
      unfold btRun
      rw [hz]
      rfl
  by_cases hlb : lookback < prices.length
  · have h1 : (List.replicate prices.length
        (⟨0, init, 0, init⟩ : BtRow)).get? lookback
        = some ((List.replicate prices.length
            (⟨0, init, 0, init⟩ : BtRow)).getD lookback ⟨0, 0, 0, 0⟩) :=
      get?_eq_some_getD _ _ (by rw [List.length_replicate]; omega)
    have hne : List.replicate prices.length (⟨0, init, 0, init⟩ : BtRow) ≠ [] :=
      List.length_pos.mp (by rw [List.length_replicate]; omega)
    have h2 := getLast?_eq_some_getD _ hne
    have heq := backtest_strategy_eq prices buySig sellSig lookback init _ _ _
      hrun h1 h2
    rw [heq] at hr
    have hr2 := Option.some.inj hr
    rw [← hr2]
    refine ⟨countPosChanges_replicate prices.length _, ?_⟩
    show ((List.replicate prices.length (⟨0, init, 0, init⟩ : BtRow)).getD
      ((List.replicate prices.length (⟨0, init, 0, init⟩ : BtRow)).length - 1)
      ⟨0, 0, 0, 0⟩).value = init
    rw [List.getD_eq_getElem _ _ (by rw [List.length_replicate]; omega),
      List.getElem_replicate]
  · exfalso
    have hnone : backtest_strategy prices buySig sellSig lookback init
        = none := by
      simp only [backtest_strategy]
      rw [hrun]
      have hg : (List.replicate prices.length
          (⟨0, init, 0, init⟩ : BtRow)).get? lookback = none := by
        rw [List.get?_eq_getElem?]
        exact List.getElem?_eq_none (by rw [List.length_replicate]; omega)
      rw [hg]
    rw [hnone] at hr
    exact Option.noConfusion hr

/-- Claim C3 witness: with no signals at all on [1, 2, 3], lookback 1 and
initial capital 100, the backtest reports 0 trades and ending capital
100. -/
theorem c3_witness :
    (backtest_strategy [1, 2, 3] [] [] 1 100).map
      (fun r => (r.num_trades, r.ending_capital)) = some (0, 100) := by
  have hs : (backtest_strategy [1, 2, 3] [] [] 1 100).isSome = true := rfl
  obtain ⟨r, hr⟩ := Option.isSome_iff_exists.mp hs
  have h := c3_flat_backtest [1, 2, 3] [] [] 1 100
    (fun i h1 h2 => rfl) (fun i h1 h2 => rfl) r hr
  rw [hr]
  simp only [Option.map]
  rw [h.1, h.2]

/-- Claim C4: a backtest run whose transitions are exactly one FLAT→LONG
buy at day b and one LONG→FLAT sell at day s, both at the same nonzero
price, ends with ending_capital equal to the initial capital exactly. -/
theorem c4_round_trip (prices : List ℚ) (buySig sellSig : List Bool)
    (lookback : ℕ) (init : ℚ) (b s : ℕ)
    (hlb : lookback ≤ b) (hbs : b < s) (hsn : s < prices.length)
    (hflat1 : ∀ i, lookback ≤ i → i < b → buySig.getD i false = false)
    (hbuy : buySig.getD b false = true)
    (hlong : ∀ i, b < i → i < s → sellSig.getD i false = false)
    (hsell : sellSig.getD s false = true)
    (hflat2 : ∀ i, s < i → i < prices.length → buySig.getD i false = false)
    (hp : prices.getD b 0 = prices.getD s 0)
    (hp0 : prices.getD b 0 ≠ 0)
    (r : BtResult)
    (hr : backtest_strategy prices buySig sellSig lookback init = some r) :
    r.ending_capital = init := by
  have hsplit : List.range' lookback (prices.length - lookback)
      = List.range' lookback (b - lookback) ++ (List.range' b 1
        ++ (List.range' (b + 1) (s - (b + 1)) ++ (List.range' s 1
        ++ List.range' (s + 1) (prices.length - (s + 1))))) := by
    rw [range'_split lookback (b - lookback) (prices.length - lookback)
      (by omega)]
    have e1 : lookback + (b - lookback) = b := by omega
    have e2 : prices.length - lookback - (b - lookback) = prices.length - b := by
      omega
    rw [e1, e2, range'_split b 1 (prices.length - b) (by omega)]
    have e3 : prices.length - b - 1 = prices.length - (b + 1) := by omega
    rw [e3, range'_split (b + 1) (s - (b + 1)) (prices.length - (b + 1))
      (by omega)]
    have e4 : b + 1 + (s - (b + 1)) = s := by omega
    have e5 : prices.length - (b + 1) - (s - (b + 1)) = prices.length - s := by
      omega
    rw [e4, e5, range'_split s 1 (prices.length - s) (by omega)]
    have e6 : prices.length - s - 1 = prices.length - (s + 1) := by omega
    rw [e6]
  have h1 : (List.range' lookback (b - lookback)).foldl
      (btStep prices buySig sellSig)
      (List.replicate prices.length ⟨0, init, 0, init⟩, 0)
      = (List.replicate prices.length ⟨0, init, 0, init⟩, 0) :=
    btRun_quiet_seg prices buySig sellSig init prices.length (b - lookback)
      lookback (by omega) (fun i hi1 hi2 => hflat1 i hi1 (by omega))
  have h2 : btStep prices buySig sellSig
      (List.replicate prices.length ⟨0, init, 0, init⟩, 0) b
      = ((List.replicate prices.length ⟨0, init, 0, init⟩).set b
          ⟨1, 0, init / prices.getD b 0, init⟩, 1) := by
    simp only [btStep]
    rw [hbuy]
    rw [if_pos (by norm_num)]
    rw [ilocRow_replicate (by omega) (by omega) (by omega)]
    dsimp only
    rw [zero_add, div_mul_cancel₀ init hp0]
  have hprevB : ((List.replicate prices.length
        (⟨0, init, 0, init⟩ : BtRow)).set b
      ⟨1, 0, init / prices.getD b 0, init⟩).getD ((b + 1) - 1) ⟨0, 0, 0, 0⟩
      = ⟨1, 0, init / prices.getD b 0, init⟩ :=
    getD_set_self _ b _ (by rw [List.length_replicate]; omega)
  obtain ⟨rows2, v2, hf2, hl2, hg2⟩ := btRun_long_seg prices buySig sellSig
    (init / prices.getD b 0) (s - (b + 1)) (b + 1)
    ((List.replicate prices.length (⟨0, init, 0, init⟩ : BtRow)).set b
      ⟨1, 0, init / prices.getD b 0, init⟩) init
    (by omega) (by rw [List.length_set, List.length_replicate]; omega)
    (fun i hi1 hi2 => hlong i (by omega) (by omega))
    hprevB
  have e7 : b + 1 + (s - (b + 1)) - 1 = s - 1 := by omega
  rw [e7] at hg2
  have h4 : btStep prices buySig sellSig (rows2, 1) s
      = (rows2.set s ⟨0, init, 0, init⟩, 0) := by
    simp only [btStep]
    rw [hsell]
    rw [if_neg (by simp), if_pos (by norm_num)]
    rw [ilocRow_eq_getD rows2 s (by omega), hg2]
    dsimp only
    rw [← hp, div_mul_cancel₀ init hp0, zero_mul, add_zero]
  have hprevS : (rows2.set s (⟨0, init, 0, init⟩ : BtRow)).getD ((s + 1) - 1)
      ⟨0, 0, 0, 0⟩ = ⟨0, init, 0, init⟩ :=
    getD_set_self rows2 s _ (by
      rw [hl2, List.length_set, List.length_replicate]
      omega)
  obtain ⟨rows4, hf4, hl4, hg4⟩ := btRun_flat_seg prices buySig sellSig init
    (prices.length - (s + 1)) (s + 1) (rows2.set s ⟨0, init, 0, init⟩) init
    (by omega)
    (by rw [List.length_set, hl2, List.length_set, List.length_replicate]; omega)
    (fun i hi1 hi2 => hflat2 i (by omega) (by omega))
    hprevS
  rw [ite_self] at hg4
  have e8 : s + 1 + (prices.length - (s + 1)) - 1 = prices.length - 1 := by
    omega
  rw [e8] at hg4
  have hrun : btRun prices buySig sellSig lookback init = rows4 := by
    unfold btRun
    rw [hsplit]
    rw [List.foldl_append, h1]
    rw [List.foldl_append, List.range'_one, List.foldl_cons, List.foldl_nil, h2]
    rw [List.foldl_append, hf2]
    rw [List.foldl_append, List.range'_one, List.foldl_cons, List.foldl_nil, h4]
    rw [hf4]
  have hlen4 : rows4.length = prices.length := by
    rw [hl4, List.length_set, hl2, List.length_set, List.length_replicate]
  have hne4 : rows4 ≠ [] := List.length_pos.mp (by rw [hlen4]; omega)
  have h1x : rows4.get? lookback = some (rows4.getD lookback ⟨0, 0, 0, 0⟩) :=
    get?_eq_some_getD _ _ (by rw [hlen4]; omega)
  have h2x := getLast?_eq_some_getD rows4 hne4
  have heq := backtest_strategy_eq prices buySig sellSig lookback init _ _ _
    hrun h1x h2x
  rw [heq] at hr
  have hr2 := Option.some.inj hr
  rw [← hr2]
  show (rows4.getD (rows4.length - 1) ⟨0, 0, 0, 0⟩).value = init
  rw [hlen4, hg4]

/-- Claim C4 witness: on prices [1, 5, 5, 7] with a buy on day 1 and a
sell on day 2 at the same price 5, the ending capital is the initial 100
exactly. -/
theorem c4_witness :
    (backtest_strategy [1, 5, 5, 7] [false, true] [false, false, true] 1
        100).map (fun r => r.ending_capital) = some 100 := by
  have hs : (backtest_strategy [1, 5, 5, 7] [false, true]
      [false, false, true] 1 100).isSome = true := rfl
  obtain ⟨r, hr⟩ := Option.isSome_iff_exists.mp hs
  have h := c4_round_trip [1, 5, 5, 7] [false, true] [false, false, true] 1
    100 1 2 (le_refl 1) (by norm_num) (by norm_num)
    (fun i h1 h2 => absurd (lt_of_le_of_lt h1 h2) (lt_irrefl 1))
    rfl
    (fun i h1 h2 => absurd h2 (by omega))
    rfl
    (by
      intro i h1 h2
      simp only [List.length_cons, List.length_nil] at h2
      interval_cases i
      rfl)
    rfl
    (by norm_num)
    r hr
  rw [hr]
  simp only [Option.map]
  rw [h]

end ETHDenver
